import Mathlib

/-!
Verification of the SMA-crossover trading bot's decision engine.

The development shallowly embeds the decision core of the repository:

* `strategy.py`: the simple-moving-average series (`pandas.rolling(w).mean()`
  over the close prices), the crossover detector `latest_signal_reason`, and
  the raw signal function `sma_cross_signal`.
* `main.py`: the drawdown guardrail `update_drawdown_and_guardrail`,
  `clear_auto_pause`, the position lookup `position_qty`, and the per-tick
  decision logic of `loop`.
* `streamlit_app.py`: the dashboard's writes to the persisted risk state
  (Start/Stop buttons, Clear Auto-Pause button, and the equity snapshot).

Prices and equities are modelled as rationals.  A pandas `NaN` cell is
modelled as `none : Option ℚ` (Python float comparisons against `NaN` are
`False`, and arithmetic on `NaN` propagates `NaN`).  A Python exception
raised by an out-of-range `iloc` access is modelled by the whole function
returning `none`.  The file-backed risk state is modelled by explicit state
passing: each Python function that loads, mutates and saves the JSON record
becomes a function from the pre-state to the post-state.
-/

/-- `smaAt w closes i` is the arithmetic mean of the `w` closes ending at
position `i` — the value `closes.rolling(w).mean()` puts at row `i` when at
least `w` observations are available there. -/
def smaAt (w : Nat) (closes : List ℚ) (i : Nat) : ℚ :=
  ((closes.take (i + 1)).drop (i + 1 - w)).sum / (w : ℚ)

/-- The column `df["close"].rolling(w).mean()` of `strategy.py`
(`compute_smas` / the inline computations in `sma_cross_signal` and
`main.loop`): position `i` holds the trailing-`w` mean once `w ≤ i + 1`,
and `NaN` (here `none`) during the warm-up.  `rolling` requires a positive
window, so only `1 ≤ w` is meaningful. -/
def smaList (w : Nat) (closes : List ℚ) : List (Option ℚ) :=
  (List.range closes.length).map fun i =>
    if 1 ≤ w ∧ w ≤ i + 1 then some (smaAt w closes i) else none

/-- `iloc[-k]` on a pandas series of length `n`: element `n - k` when the
index is in range, and an `IndexError` (modelled as `none`) otherwise. -/
def ilocNeg {α : Type} (l : List α) (k : Nat) : Option α :=
  if k ≤ l.length then l[l.length - k]? else none

/-- Subtraction on float cells: `NaN` propagates. -/
def nanSub : Option ℚ → Option ℚ → Option ℚ
  | some x, some y => some (x - y)
  | _, _ => none

/-- Absolute value on float cells: `NaN` propagates. -/
def nanAbs : Option ℚ → Option ℚ
  | some x => some |x|
  | none => none

/-- Division of a float cell by a (non-`NaN`, nonzero) float: `NaN`
propagates. -/
def nanDiv : Option ℚ → ℚ → Option ℚ
  | some x, d => some (x / d)
  | none, _ => none

/-- Python `<=` on floats: any comparison involving `NaN` is `False`. -/
def nanLE : Option ℚ → Option ℚ → Bool
  | some x, some y => decide (x ≤ y)
  | _, _ => false

/-- Python `<` on floats: any comparison involving `NaN` is `False`. -/
def nanLT : Option ℚ → Option ℚ → Bool
  | some x, some y => decide (x < y)
  | _, _ => false

/-- The `eps = 1e-9` guard of `latest_signal_reason` /
`describe_sma_signal`. -/
def smaEps : ℚ := 1 / 1000000000

/-- The signal word returned by `latest_signal_reason`: `"buy"`, `"sell"`,
or `"none"` (the latter for both the HOLD and the not-enough-data cases). -/
inductive SigWord
  | buy
  | sell
  | none_
deriving DecidableEq

/-- The regime word interpolated into the HOLD reason string. -/
inductive Regime
  | above
  | below
  | equal
deriving DecidableEq

/-- The reason strings of `latest_signal_reason`, by shape:
`"Not enough data"`, `"BUY — SMA(fast) crossed above SMA(slow)"`,
`"SELL — SMA(fast) crossed below SMA(slow)"`, and
`"HOLD — SMA(fast) is {regime} SMA(slow); no crossover"`. -/
inductive SigReason
  | notEnoughData
  | crossedAbove
  | crossedBelow
  | holdRegime (r : Regime)
deriving DecidableEq

/-- The `(signal, reason, confidence)` triple returned by
`latest_signal_reason`.  The confidence is a float cell because
`abs(curr_fast - curr_slow)` can be `NaN` when the fast column is still
warming up while the slow one is not. -/
structure SignalReport where
  signal : SigWord
  reason : SigReason
  confidence : Option ℚ
deriving DecidableEq

/-- `strategy.latest_signal_reason(df, fast, slow)` where `df` carries the
columns `SMA{fast}` and `SMA{slow}` computed by `compute_smas`.  The outer
`none` is the `IndexError` raised by `iloc[-1]` on an empty frame or by
`iloc[-2]` on a one-row frame. -/
def latest_signal_reason (fast slow : Nat) (closes : List ℚ) : Option SignalReport :=
  let fser := smaList fast closes
  let sser := smaList slow closes
  match ilocNeg sser 1 with
  | none => none
  | some none => some ⟨SigWord.none_, SigReason.notEnoughData, some 0⟩
  | some (some currSlow) =>
    match ilocNeg fser 2, ilocNeg sser 2, ilocNeg fser 1 with
    | some prevFast, some prevSlow, some currFast =>
      let confidence := nanDiv (nanAbs (nanSub currFast (some currSlow))) (max |currSlow| smaEps)
      if nanLE prevFast prevSlow && nanLT (some currSlow) currFast then
        some ⟨SigWord.buy, SigReason.crossedAbove, confidence⟩
      else if nanLE prevSlow prevFast && nanLT currFast (some currSlow) then
        some ⟨SigWord.sell, SigReason.crossedBelow, confidence⟩
      else
        some ⟨SigWord.none_,
          SigReason.holdRegime
            (if nanLT (some currSlow) currFast then Regime.above
             else if nanLT currFast (some currSlow) then Regime.below
             else Regime.equal),
          confidence⟩
    | _, _, _ => none

/-- The signal strings of `strategy.sma_cross_signal`: `"buy"`, `"sell"`,
`"hold"` (a returned Python `None` is the surrounding `Option`'s `none`). -/
inductive SigCross
  | buy
  | sell
  | hold
deriving DecidableEq

/-- `strategy.sma_cross_signal(df, fast, slow)`.  Outer `none`: an
`IndexError` from `iloc`; `some none`: the function's `return None` when the
slow SMA is still `NaN` at the latest row. -/
def sma_cross_signal (fast slow : Nat) (closes : List ℚ) : Option (Option SigCross) :=
  let fser := smaList fast closes
  let sser := smaList slow closes
  match ilocNeg sser 1 with
  | none => none
  | some none => some none
  | some (some currSlow) =>
    match ilocNeg fser 2, ilocNeg sser 2, ilocNeg fser 1 with
    | some prevFast, some prevSlow, some currFast =>
      if nanLE prevFast prevSlow && nanLT (some currSlow) currFast then
        some (some SigCross.buy)
      else if nanLE prevSlow prevFast && nanLT currFast (some currSlow) then
        some (some SigCross.sell)
      else
        some (some SigCross.hold)
    | _, _, _ => none

/-- The spec-side description of the detector (claim C1's wording): the four
values `prevFast, prevSlow, currFast, currSlow` are the fast/slow SMAs at
the last two positions, the branch conditions are the two crossover tests,
the regime word compares `currFast` with `currSlow`, and every branch
carries confidence `|currFast − currSlow| / max |currSlow| 1e-9`. -/
def detectorSpec (fast slow : Nat) (closes : List ℚ) : SignalReport :=
  let prevFast := smaAt fast closes (closes.length - 2)
  let prevSlow := smaAt slow closes (closes.length - 2)
  let currFast := smaAt fast closes (closes.length - 1)
  let currSlow := smaAt slow closes (closes.length - 1)
  let confidence := |currFast - currSlow| / max |currSlow| smaEps
  if prevFast ≤ prevSlow ∧ currSlow < currFast then
    ⟨SigWord.buy, SigReason.crossedAbove, some confidence⟩
  else if prevSlow ≤ prevFast ∧ currFast < currSlow then
    ⟨SigWord.sell, SigReason.crossedBelow, some confidence⟩
  else
    ⟨SigWord.none_,
      SigReason.holdRegime
        (if currSlow < currFast then Regime.above
         else if currFast < currSlow then Regime.below
         else Regime.equal),
      some confidence⟩

/-- The spec-side description of the raw signal word (same branch
conditions as `detectorSpec`). -/
def detectorSpecCross (fast slow : Nat) (closes : List ℚ) : SigCross :=
  let prevFast := smaAt fast closes (closes.length - 2)
  let prevSlow := smaAt slow closes (closes.length - 2)
  let currFast := smaAt fast closes (closes.length - 1)
  let currSlow := smaAt slow closes (closes.length - 1)
  if prevFast ≤ prevSlow ∧ currSlow < currFast then SigCross.buy
  else if prevSlow ≤ prevFast ∧ currFast < currSlow then SigCross.sell
  else SigCross.hold

/-- The persisted `risk_state.json` record (`strategy.load_risk_state` /
`save_risk_state`): `peak_equity` and `last_equity` are `null` before the
first observation. -/
structure RiskState where
  peak_equity : Option ℚ
  auto_paused : Bool
  last_equity : Option ℚ
  user_paused : Bool
deriving DecidableEq

/-- The default record `load_risk_state` returns when the file is missing
or corrupt. -/
def initialRiskState : RiskState := ⟨none, false, none, false⟩

/-- The `(auto_paused, dd_pct, peak)` triple returned by
`update_drawdown_and_guardrail`. -/
structure ObserveResult where
  auto_paused : Bool
  dd_pct : ℚ
  peak : ℚ
deriving DecidableEq

/-- `main.update_drawdown_and_guardrail(acct_equity)` with the loaded state
made explicit: updates the peak, computes the drawdown, trips the one-way
auto-pause latch when the drawdown reaches `maxDdPct` (`MAX_DD_PCT`), and
persists the updated record. -/
def update_drawdown_and_guardrail (maxDdPct : ℚ) (s : RiskState) (acct_equity : ℚ) :
    ObserveResult × RiskState :=
  let peak : ℚ :=
    match s.peak_equity with
    | none => acct_equity
    | some p => if p < acct_equity then acct_equity else p
  let dd_pct : ℚ := if peak = 0 then 0 else max 0 ((peak - acct_equity) / peak)
  let auto_paused : Bool := if maxDdPct ≤ dd_pct then true else s.auto_paused
  (⟨auto_paused, dd_pct, peak⟩,
   { s with peak_equity := some peak, last_equity := some acct_equity, auto_paused := auto_paused })

/-- The post-state of one `update_drawdown_and_guardrail` call. -/
def observe_state (maxDdPct : ℚ) (s : RiskState) (e : ℚ) : RiskState :=
  (update_drawdown_and_guardrail maxDdPct s e).2

/-- The state after a whole sequence of `update_drawdown_and_guardrail`
calls, oldest first. -/
def observe_seq (maxDdPct : ℚ) (s : RiskState) (eqs : List ℚ) : RiskState :=
  eqs.foldl (observe_state maxDdPct) s

/-- `main.clear_auto_pause()` (also the dashboard's Clear Auto-Pause
button): unconditionally clears the latch. -/
def clear_auto_pause (s : RiskState) : RiskState :=
  { s with auto_paused := false }

/-- The dashboard's Start/Stop buttons: set `user_paused` and persist,
touching nothing else. -/
def set_user_paused (b : Bool) (s : RiskState) : RiskState :=
  { s with user_paused := b }

/-- The dashboard's account-snapshot block (`streamlit_app.py`): maintains
`peak_equity` / `last_equity` exactly like the guardrail but never writes
`auto_paused`. -/
def dashboard_equity_snapshot (s : RiskState) (equity : ℚ) : RiskState :=
  let peak : ℚ :=
    match s.peak_equity with
    | none => equity
    | some p => if p < equity then equity else p
  { s with peak_equity := some peak, last_equity := some equity }

/-- Every write the repository performs on the persisted risk state:
the guardrail observation (`main.loop`), the latch clear (`main` and the
dashboard button), the Start/Stop toggle, and the dashboard snapshot. -/
inductive RiskOp
  | observe (maxDdPct equity : ℚ)
  | clearAutoPause
  | setUserPaused (b : Bool)
  | dashboardSnapshot (equity : ℚ)
deriving DecidableEq

/-- Apply one risk-state operation. -/
def applyRiskOp : RiskOp → RiskState → RiskState
  | RiskOp.observe m e, s => observe_state m s e
  | RiskOp.clearAutoPause, s => clear_auto_pause s
  | RiskOp.setUserPaused b, s => set_user_paused b s
  | RiskOp.dashboardSnapshot e, s => dashboard_equity_snapshot s e

/-- Order on persisted peaks, an absent peak below every number. -/
def peakLE : Option ℚ → Option ℚ → Prop
  | none, _ => True
  | some _, none => False
  | some a, some b => a ≤ b

/-- A persisted peak that is absent or strictly negative. -/
def peakNegOrAbsent : Option ℚ → Prop
  | none => True
  | some p => p < 0

/-- Python `int(...)` on a rational: truncation toward zero. -/
def pyInt (q : ℚ) : Int :=
  if 0 ≤ q then Int.floor q else Int.ceil q

/-- `main.position_qty(api, symbol)`: `int(float(pos.qty))` when the
brokerage query succeeds, and `0` when `api.get_position` raises for any
reason (no position, network error, malformed response). -/
def position_qty (res : Except String ℚ) : Int :=
  match res with
  | Except.ok q => pyInt q
  | Except.error _ => 0

/-- `should_buy = signal == "buy" and qty_now <= 0` from `main.loop`. -/
def should_buy (signal : Option SigCross) (qty_now : Int) : Bool :=
  decide (signal = some SigCross.buy) && decide (qty_now ≤ 0)

/-- `should_sell = signal == "sell" and qty_now > 0` from `main.loop`. -/
def should_sell (signal : Option SigCross) (qty_now : Int) : Bool :=
  decide (signal = some SigCross.sell) && decide (0 < qty_now)

/-- The bounded action resolved by one loop iteration. -/
inductive TradeAction
  | buyAct
  | sellAct
  | holdAct
deriving DecidableEq

/-- A resolved decision: the action, and whether an order is actually
submitted this cycle. -/
structure Decision where
  action : TradeAction
  execute : Bool
deriving DecidableEq

/-- The decision logic of one `main.loop` iteration, after the guardrail
observation: a user pause, the auto-pause latch, or a missing signal each
`continue` the loop (action HOLD, nothing executed); otherwise the
`should_buy` / `should_sell` predicates pick the action, and an order is
submitted only when `DRY_RUN` is off and the action is not HOLD. -/
def loop_decision (user_paused auto_paused : Bool) (signal : Option SigCross)
    (qty_now : Int) (dry_run : Bool) : Decision :=
  if user_paused then ⟨TradeAction.holdAct, false⟩
  else if auto_paused then ⟨TradeAction.holdAct, false⟩
  else if signal = none then ⟨TradeAction.holdAct, false⟩
  else
    let action :=
      if should_buy signal qty_now then TradeAction.buyAct
      else if should_sell signal qty_now then TradeAction.sellAct
      else TradeAction.holdAct
    if dry_run ∨ action = TradeAction.holdAct then ⟨action, false⟩
    else ⟨action, true⟩

/-! ### Helper lemmas about the guardrail -/

/-- Normal form of one guardrail update: the new peak `P` dominates the
observed equity, and every component is expressed through `P`. -/
theorem observe_step_eq (m : ℚ) (s : RiskState) (e : ℚ) :
    ∃ P : ℚ, e ≤ P ∧
      update_drawdown_and_guardrail m s e =
        (⟨if m ≤ (if P = 0 then 0 else max 0 ((P - e) / P)) then true else s.auto_paused,
          if P = 0 then 0 else max 0 ((P - e) / P), P⟩,
         ⟨some P,
          if m ≤ (if P = 0 then 0 else max 0 ((P - e) / P)) then true else s.auto_paused,
          some e, s.user_paused⟩) := by
  rcases s with ⟨po, ap, l, u⟩
  cases po with
  | none => exact ⟨e, le_rfl, rfl⟩
  | some p =>
    by_cases h : p < e
    · exact ⟨e, le_rfl, by simp [update_drawdown_and_guardrail, if_pos h]⟩
    · exact ⟨p, le_of_not_lt h, by simp [update_drawdown_and_guardrail, if_neg h]⟩

/-- The peak persisted by one guardrail update. -/
theorem observe_state_peak (m : ℚ) (s : RiskState) (e : ℚ) :
    (observe_state m s e).peak_equity =
      some (match s.peak_equity with
            | none => e
            | some p => if p < e then e else p) := by
  rcases s with ⟨po, ap, l, u⟩
  cases po <;> rfl

/-- When the updated peak is negative, the computed drawdown is `0`. -/
theorem dd_zero_of_peak_neg (m : ℚ) (s : RiskState) (e : ℚ)
    (h : (update_drawdown_and_guardrail m s e).1.peak < 0) :
    (update_drawdown_and_guardrail m s e).1.dd_pct = 0 := by
  obtain ⟨P, heP, h1⟩ := observe_step_eq m s e
  rw [h1] at h ⊢
  simp only at h ⊢
  rw [if_neg h.ne]
  refine max_eq_left ?_
  exact div_nonpos_of_nonneg_of_nonpos (sub_nonneg.mpr heP) h.le

/-- One guardrail update preserves "peak negative-or-absent and latch
untripped" when the observed equity is negative and the threshold
positive. -/
theorem observe_state_neg_invariant (m : ℚ) (s : RiskState) (e : ℚ)
    (he : e < 0) (hm : 0 < m) (hp : peakNegOrAbsent s.peak_equity)
    (ha : s.auto_paused = false) :
    peakNegOrAbsent (observe_state m s e).peak_equity ∧
      (observe_state m s e).auto_paused = false := by
  obtain ⟨P, heP, h1⟩ := observe_step_eq m s e
  have hPeq : some P =
      some (match s.peak_equity with
            | none => e
            | some p => if p < e then e else p) := by
    have hpk := observe_state_peak m s e
    rw [observe_state, h1] at hpk
    exact hpk
  have hPneg : P < 0 := by
    have hP := Option.some_injective ℚ hPeq
    rcases s with ⟨po, ap, l, u⟩
    cases po with
    | none => rw [hP]; exact he
    | some p =>
      have hpneg : p < 0 := hp
      rw [show (match (⟨some p, ap, l, u⟩ : RiskState).peak_equity with
            | none => e
            | some q => if q < e then e else q) = if p < e then e else p from rfl] at hP
      rw [hP]
      split_ifs with hcase
      · exact he
      · exact hpneg
  have hdd : (update_drawdown_and_guardrail m s e).1.dd_pct = 0 :=
    dd_zero_of_peak_neg m s e (by rw [h1]; exact hPneg)
  have hddP : (if P = 0 then (0 : ℚ) else max 0 ((P - e) / P)) = 0 := by
    have hform : (update_drawdown_and_guardrail m s e).1.dd_pct =
        if P = 0 then (0 : ℚ) else max 0 ((P - e) / P) := by rw [h1]
    rw [← hform, hdd]
  constructor
  · show peakNegOrAbsent (update_drawdown_and_guardrail m s e).2.peak_equity
    rw [h1]
    exact hPneg
  · show (update_drawdown_and_guardrail m s e).2.auto_paused = false
    rw [h1]
    show (if m ≤ (if P = 0 then (0 : ℚ) else max 0 ((P - e) / P)) then true
          else s.auto_paused) = false
    rw [hddP, if_neg (not_le.mpr hm), ha]

/-! ### Claims about the drawdown guardrail -/

/-- C2: `observe(equity)` returns `(auto_paused, dd, peak')` with
`peak' = equity` when the peak was absent or exceeded, `peak'` unchanged
otherwise; `dd = 0` when `peak' = 0` and `max 0 ((peak' − equity)/peak')`
otherwise; `auto_paused` forced true whenever `dd` reaches the threshold;
and in particular observing `9400` with peak `10000` and threshold `0.05`
yields `dd = 0.06` and `auto_paused = true`. -/
theorem observe_returns_spec (maxDdPct : ℚ) (s : RiskState) (e : ℚ) :
    (update_drawdown_and_guardrail maxDdPct s e).1.peak =
      (match s.peak_equity with
       | none => e
       | some p => max p e) ∧
    (update_drawdown_and_guardrail maxDdPct s e).1.dd_pct =
      (if (update_drawdown_and_guardrail maxDdPct s e).1.peak = 0 then 0
       else max 0 (((update_drawdown_and_guardrail maxDdPct s e).1.peak - e) /
         (update_drawdown_and_guardrail maxDdPct s e).1.peak)) ∧
    (maxDdPct ≤ (update_drawdown_and_guardrail maxDdPct s e).1.dd_pct →
      (update_drawdown_and_guardrail maxDdPct s e).1.auto_paused = true) ∧
    (update_drawdown_and_guardrail (5 / 100) ⟨some 10000, false, none, false⟩ 9400).1 =
      ⟨true, 6 / 100, 10000⟩ := by
  refine ⟨?_, ?_, ?_, ?_⟩
  · rcases s with ⟨po, ap, l, u⟩
    cases po with
    | none => rfl
    | some p =>
      show (if p < e then e else p) = max p e
      split_ifs with h
      · exact (max_eq_right h.le).symm
      · exact (max_eq_left (le_of_not_lt h)).symm
  · rfl
  · intro h
    obtain ⟨P, heP, h1⟩ := observe_step_eq maxDdPct s e
    rw [h1] at h ⊢
    simp only at h ⊢
    rw [if_pos h]
  · norm_num [update_drawdown_and_guardrail]

/-- C2 witness: the Scenario C instance trips the latch. -/
theorem observe_returns_spec_witness :
    (update_drawdown_and_guardrail (5 / 100) ⟨some 10000, false, none, false⟩ 9400).1.auto_paused =
      true := by
  refine (observe_returns_spec (5 / 100) ⟨some 10000, false, none, false⟩ 9400).2.2.1 ?_
  norm_num [update_drawdown_and_guardrail]

/-- Sequence version of `observe_state_neg_invariant`. -/
theorem observe_seq_neg (m : ℚ) (eqs : List ℚ) :
    ∀ s0 : RiskState, (∀ x ∈ eqs, x < 0) → 0 < m → peakNegOrAbsent s0.peak_equity →
      s0.auto_paused = false → (observe_seq m s0 eqs).auto_paused = false := by
  induction eqs with
  | nil =>
    intro s0 _ _ _ ha
    exact ha
  | cons x xs ih =>
    intro s0 hneg hm hp ha
    have hx : x < 0 := hneg x (List.mem_cons_self x xs)
    have hstep := observe_state_neg_invariant m s0 x hx hm hp ha
    exact ih (observe_state m s0 x) (fun y hy => hneg y (List.mem_cons_of_mem x hy)) hm
      hstep.1 hstep.2

/-- C3: once `auto_paused` is true, every further `observe` keeps it true
(whatever the equity), the Start/Stop toggle and the dashboard snapshot
never touch it, and `clear_auto_pause` — the only resetting operation —
sets it to false. -/
theorem auto_pause_latch (op : RiskOp) (s : RiskState) :
    (applyRiskOp RiskOp.clearAutoPause s).auto_paused = false ∧
    (op ≠ RiskOp.clearAutoPause → s.auto_paused = true →
      (applyRiskOp op s).auto_paused = true) := by
  constructor
  · rfl
  · intro hop hs
    cases op with
    | observe m e =>
      show (observe_state m s e).auto_paused = true
      obtain ⟨P, heP, h1⟩ := observe_step_eq m s e
      rw [observe_state, h1]
      show (if m ≤ (if P = 0 then (0 : ℚ) else max 0 ((P - e) / P)) then true
            else s.auto_paused) = true
      rw [hs]
      exact ite_self true
    | clearAutoPause => exact absurd rfl hop
    | setUserPaused b => exact hs
    | dashboardSnapshot e => exact hs

/-- C3 witness: a tripped latch survives an `observe` at a new equity high
(Scenario D), and a clear resets it. -/
theorem auto_pause_latch_witness :
    (applyRiskOp RiskOp.clearAutoPause ⟨none, true, none, false⟩).auto_paused = false ∧
    (applyRiskOp (RiskOp.observe (5 / 100) 10200) ⟨some 10000, true, none, false⟩).auto_paused =
      true := by
  constructor
  · exact (auto_pause_latch RiskOp.clearAutoPause ⟨none, true, none, false⟩).1
  · refine (auto_pause_latch (RiskOp.observe (5 / 100) 10200)
      ⟨some 10000, true, none, false⟩).2 ?_ rfl
    intro hcon
    exact RiskOp.noConfusion hcon

/-- C4: along any sequence of `observe` calls from any starting state, the
persisted `peak_equity` never decreases (an absent peak counting below
every number). -/
theorem peak_monotone (maxDdPct : ℚ) (s : RiskState) (eqs : List ℚ) (e : ℚ) :
    peakLE (observe_seq maxDdPct s eqs).peak_equity
      (observe_seq maxDdPct s (eqs ++ [e])).peak_equity := by
  rw [observe_seq, observe_seq, List.foldl_append]
  generalize List.foldl (observe_state maxDdPct) s eqs = t
  show peakLE t.peak_equity (observe_state maxDdPct t e).peak_equity
  rw [observe_state_peak]
  rcases hpo : t.peak_equity with _ | p
  · exact trivial
  · show p ≤ if p < e then e else p
    split_ifs with h
    · exact h.le
    · exact le_rfl

/-- C8: observing the same equity twice in a row returns the same
`(auto_paused, dd, peak)` triple both times and leaves the persisted state
of the first call unchanged. -/
theorem observe_idempotent (maxDdPct : ℚ) (s : RiskState) (e : ℚ) :
    update_drawdown_and_guardrail maxDdPct (observe_state maxDdPct s e) e =
      ((update_drawdown_and_guardrail maxDdPct s e).1, observe_state maxDdPct s e) := by
  obtain ⟨P, heP, h1⟩ := observe_step_eq maxDdPct s e
  have hnot : ¬ P < e := not_lt.mpr heP
  rw [observe_state, h1]
  simp only [update_drawdown_and_guardrail]
  rw [if_neg hnot]
  split_ifs <;> rfl

/-- C10: a strictly negative updated peak always clamps the drawdown to
`0`, so from a state whose peak is absent or negative and whose latch is
untripped, observing only negative equities never trips `auto_paused`, for
any positive threshold. -/
theorem negative_peak_zero_drawdown (maxDdPct : ℚ) (s s0 : RiskState) (e : ℚ)
    (eqs : List ℚ) :
    ((update_drawdown_and_guardrail maxDdPct s e).1.peak < 0 →
      (update_drawdown_and_guardrail maxDdPct s e).1.dd_pct = 0) ∧
    ((∀ x ∈ eqs, x < 0) → 0 < maxDdPct → peakNegOrAbsent s0.peak_equity →
      s0.auto_paused = false →
      (observe_seq maxDdPct s0 eqs).auto_paused = false) := by
  constructor
  · exact dd_zero_of_peak_neg maxDdPct s e
  · intro hneg hm hp ha
    exact observe_seq_neg maxDdPct eqs s0 hneg hm hp ha

/-- C10 witness: a negative peak yields zero drawdown, and a fresh state
fed only negative equities never auto-pauses. -/
theorem negative_peak_zero_drawdown_witness :
    (update_drawdown_and_guardrail (5 / 100) ⟨some (-5), false, none, false⟩ (-10)).1.dd_pct =
      0 ∧
    (observe_seq (5 / 100) ⟨none, false, none, false⟩ [-1, -2, -3]).auto_paused = false := by
  have h := negative_peak_zero_drawdown (5 / 100) ⟨some (-5), false, none, false⟩
    ⟨none, false, none, false⟩ (-10) [-1, -2, -3]
  refine ⟨h.1 ?_, h.2 ?_ ?_ trivial rfl⟩
  · norm_num [update_drawdown_and_guardrail]
  · intro x hx
    fin_cases hx <;> norm_num
  · norm_num

/-! ### Claims about the loop's decision logic -/

/-- C5: a manual pause, the tripped auto-pause latch, or a missing signal
each force the resolved action to HOLD with execution suppressed, whatever
the signal, position and dry-run flag. -/
theorem pause_forces_hold :
    (∀ (ap : Bool) (sig : Option SigCross) (q : Int) (dry : Bool),
      loop_decision true ap sig q dry = ⟨TradeAction.holdAct, false⟩) ∧
    (∀ (sig : Option SigCross) (q : Int) (dry : Bool),
      loop_decision false true sig q dry = ⟨TradeAction.holdAct, false⟩) ∧
    (∀ (q : Int) (dry : Bool),
      loop_decision false false none q dry = ⟨TradeAction.holdAct, false⟩) := by
  refine ⟨fun ap sig q dry => rfl, fun sig q dry => rfl, fun q dry => ?_⟩
  simp [loop_decision]

/-- C6: `should_buy` and `should_sell` are never simultaneously true. -/
theorem buy_sell_mutex (sig : Option SigCross) (q : Int) :
    (should_buy sig q && should_sell sig q) = false := by
  rcases sig with _ | c
  · simp [should_buy, should_sell]
  · cases c <;> simp [should_buy, should_sell]

/-- C9: whenever the brokerage position query fails, `position_qty`
returns `0`, and with that quantity a BUY signal resolves to an executed
BUY order — a failed fetch is indistinguishable from a flat position. -/
theorem position_fetch_failure_flat :
    (∀ msg : String, position_qty (Except.error msg) = 0) ∧
    (∀ msg : String,
      loop_decision false false (some SigCross.buy) (position_qty (Except.error msg)) false =
        ⟨TradeAction.buyAct, true⟩) := by
  constructor
  · intro msg
    rfl
  · intro msg
    simp [loop_decision, position_qty, should_buy, should_sell]

/-! ### Helper lemmas about the SMA series -/

/-- The SMA column is aligned 1:1 with the close column. -/
theorem smaList_length (w : Nat) (closes : List ℚ) :
    (smaList w closes).length = closes.length := by
  simp [smaList]

/-- Evaluating `iloc[-k]` on an SMA column: in range it yields the trailing
mean once the window fits, `NaN` during warm-up. -/
theorem ilocNeg_smaList (w k : Nat) (closes : List ℚ) (hk1 : 1 ≤ k)
    (hk : k ≤ closes.length) :
    ilocNeg (smaList w closes) k =
      some (if 1 ≤ w ∧ w ≤ closes.length + 1 - k then
              some (smaAt w closes (closes.length - k))
            else none) := by
  have hlt : closes.length - k < closes.length := by omega
  have harith : closes.length - k + 1 = closes.length + 1 - k := by omega
  rw [ilocNeg, smaList_length, if_pos hk]
  simp only [smaList, List.getElem?_map, List.getElem?_range hlt, Option.map_some']
  rw [harith]

/-! ### Claims about the crossover detector -/

/-- C1: whenever the slow SMA is defined at the last two positions (series
at least one bar longer than the slow window, windows positive and
ordered), the detector returns exactly the spec's BUY/SELL/HOLD-with-regime
classification, each branch carrying confidence
`|currFast − currSlow| / max(|currSlow|, 1e-9)` built from the four SMA
values at the last two positions. -/
theorem crossover_detector_spec (fast slow : Nat) (closes : List ℚ)
    (hf : 1 ≤ fast) (hfs : fast ≤ slow) (hn : slow + 1 ≤ closes.length) :
    latest_signal_reason fast slow closes = some (detectorSpec fast slow closes) ∧
    sma_cross_signal fast slow closes = some (some (detectorSpecCross fast slow closes)) := by
  have h1n : 1 ≤ closes.length := by omega
  have h2n : 2 ≤ closes.length := by omega
  have e1 : ilocNeg (smaList slow closes) 1 =
      some (some (smaAt slow closes (closes.length - 1))) := by
    rw [ilocNeg_smaList slow 1 closes le_rfl h1n, if_pos]
    exact ⟨by omega, by omega⟩
  have e2 : ilocNeg (smaList fast closes) 2 =
      some (some (smaAt fast closes (closes.length - 2))) := by
    rw [ilocNeg_smaList fast 2 closes (by omega) h2n, if_pos]
    exact ⟨hf, by omega⟩
  have e3 : ilocNeg (smaList slow closes) 2 =
      some (some (smaAt slow closes (closes.length - 2))) := by
    rw [ilocNeg_smaList slow 2 closes (by omega) h2n, if_pos]
    exact ⟨by omega, by omega⟩
  have e4 : ilocNeg (smaList fast closes) 1 =
      some (some (smaAt fast closes (closes.length - 1))) := by
    rw [ilocNeg_smaList fast 1 closes le_rfl h1n, if_pos]
    exact ⟨hf, by omega⟩
  constructor
  · simp only [latest_signal_reason, detectorSpec, e1, e2, e3, e4, nanLE, nanLT,
      nanSub, nanAbs, nanDiv, Bool.and_eq_true, decide_eq_true_eq]
    split_ifs <;> rfl
  · simp only [sma_cross_signal, detectorSpecCross, e1, e2, e3, e4, nanLE, nanLT,
      Bool.and_eq_true, decide_eq_true_eq]
    split_ifs <;> rfl

/-- C1 witness: on closes `[1,2,3,4]` with windows `2`/`3` the detector
reports the above-regime HOLD with confidence `1/6`. -/
theorem crossover_detector_spec_witness :
    latest_signal_reason 2 3 [1, 2, 3, 4] =
      some ⟨SigWord.none_, SigReason.holdRegime Regime.above, some (1 / 6)⟩ ∧
    sma_cross_signal 2 3 [1, 2, 3, 4] = some (some SigCross.hold) := by
  have h := crossover_detector_spec 2 3 [1, 2, 3, 4] (by norm_num) (by norm_num)
    (by norm_num)
  refine ⟨h.1.trans ?_, h.2.trans ?_⟩
  · norm_num [detectorSpec, smaAt, smaEps, abs_of_nonneg]
  · norm_num [detectorSpecCross, smaAt]

/-- C7 counterexample: on closes `[1,2,3]` with windows `2`/`3` the slow
SMA is defined at exactly one position, yet the detector answers the
above-regime HOLD with confidence `1/4`, not UNDETERMINED: the previous
slow value is `NaN` and both crossover comparisons are false in Python. -/
theorem undetermined_needs_two_counterexample :
    ((smaList 3 [1, 2, 3]).filter (fun o => o.isSome)).length < 2 ∧
    latest_signal_reason 2 3 [1, 2, 3] =
      some ⟨SigWord.none_, SigReason.holdRegime Regime.above, some (1 / 4)⟩ ∧
    latest_signal_reason 2 3 [1, 2, 3] ≠
      some ⟨SigWord.none_, SigReason.notEnoughData, some 0⟩ := by
  have hsma : smaList 3 [1, 2, 3] = [none, none, some 2] := by
    norm_num [smaList, smaAt, List.range_succ]
  refine ⟨?_, ?_, ?_⟩
  · rw [hsma]
    simp
  · norm_num [latest_signal_reason, smaList, smaAt, ilocNeg, nanLE, nanLT, nanSub,
      nanAbs, nanDiv, smaEps, List.range_succ, abs_of_nonneg]
  · norm_num [latest_signal_reason, smaList, smaAt, ilocNeg, nanLE, nanLT, nanSub,
      nanAbs, nanDiv, smaEps, List.range_succ, abs_of_nonneg]

/-- C7 (amended): for every nonempty series shorter than the slow window —
so the slow SMA is undefined at the last position — the detector returns
UNDETERMINED with confidence `0` and reason "Not enough data", without
raising. -/
theorem undetermined_when_slow_undefined (fast slow : Nat) (closes : List ℚ)
    (hne : closes ≠ []) (hlen : closes.length < slow) :
    latest_signal_reason fast slow closes =
      some ⟨SigWord.none_, SigReason.notEnoughData, some 0⟩ := by
  have h1n : 1 ≤ closes.length := List.length_pos.mpr hne
  have e1 : ilocNeg (smaList slow closes) 1 = some none := by
    rw [ilocNeg_smaList slow 1 closes le_rfl h1n, if_neg]
    intro hcon
    omega
  simp only [latest_signal_reason, e1]

/-- C7 witness: a single bar with the default `10/30` windows is
UNDETERMINED. -/
theorem undetermined_when_slow_undefined_witness :
    latest_signal_reason 10 30 [1] =
      some ⟨SigWord.none_, SigReason.notEnoughData, some 0⟩ :=
  undetermined_when_slow_undefined 10 30 [1] (List.cons_ne_nil 1 []) (by norm_num)
